import Mathlib

/-!
Verification of the crtsh subdomain-discovery service.

The discovery pipeline lives in `SubdomainService` (PHP): two providers
(`subfinder`, launched as a background process, and a `crt.sh` lookup whose
shell pipeline is `... | sed 's/\*\.//g' | grep -v '@' | sort | uniq`),
a file-based rendezvous (`waitForFiles`), a merger (`combineResults`:
per-file `array_filter(array_map('trim', file(...)))`, `array_merge`,
`array_unique`, `sort`), an enrichment stage (`runHttpx`) and a Redis cache
(`RedisService`).  This file embeds those functions shallowly: the
filesystem and the cache are explicit association lists threaded through
the functions, the external processes are an environment
(what each provider would write, what `httpx` would print), and the only
exception source the `try`/`catch` blocks guard against is modelled as an
abstract failure point `failAt` injected between the statements of the
`try` body.
-/

/-! ### PHP / shell string primitives

The PHP builtins used by the service (`trim`, falsy-filtering, `array_unique`,
`sort`) and the shell stages of the crt.sh pipeline (`sed 's/\*\.//g'`,
`grep -v '@'`, `sort`, `uniq`) are modelled structurally over `String.data`
so that every definition evaluates inside the kernel. -/

/-- Characters removed by PHP `trim`: space, tab, newline, carriage return,
NUL and vertical tab. -/
def phpIsTrimChar (c : Char) : Bool :=
  c.toNat = 32 || c.toNat = 9 || c.toNat = 10 || c.toNat = 13 || c.toNat = 0 || c.toNat = 11

/-- PHP `trim`: strip trim-characters from both ends. -/
def phpTrim (s : String) : String :=
  ⟨((s.data.dropWhile phpIsTrimChar).reverse.dropWhile phpIsTrimChar).reverse⟩

/-- PHP truthiness of a string, as used by `array_filter` with no callback and
by `if (trim($line))`: the empty string and the string "0" are falsy. -/
def phpTruthyStr (s : String) : Bool := !(s == "" || s == "0")

/-- The per-file preprocessing of `combineResults` and `runCrtshOrg`:
`array_filter(array_map('trim', file($f)))`. -/
def trimFilter (ls : List String) : List String := (ls.map phpTrim).filter phpTruthyStr

/-- Accumulator form of PHP `array_unique` (first occurrence survives). -/
def phpArrayUniqueAux (seen : List String) : List String → List String
  | [] => []
  | a :: l =>
    if a ∈ seen then phpArrayUniqueAux seen l
    else a :: phpArrayUniqueAux (a :: seen) l

/-- PHP `array_unique`: drop every later duplicate of an element. -/
def phpArrayUnique (l : List String) : List String := phpArrayUniqueAux [] l

/-- Byte-order comparison of character lists (the comparison `sort(1)` in the
C locale and PHP `sort` apply to the hostname strings handled here). -/
def charsLe : List Char → List Char → Bool
  | [], _ => true
  | _ :: _, [] => false
  | a :: as, b :: bs =>
    if a.toNat < b.toNat then true
    else if b.toNat < a.toNat then false
    else charsLe as bs

/-- Lexicographic (byte-order) comparison on strings. -/
def strLe (a b : String) : Bool := charsLe a.data b.data

/-- PHP `sort` / shell `sort`: sort ascending under `strLe`. -/
def sortStr (l : List String) : List String := l.insertionSort (fun a b => strLe a b)

/-- Shell `uniq`: collapse adjacent equal lines. -/
def uniqAdjacent : List String → List String
  | [] => []
  | [a] => [a]
  | a :: b :: l => if a = b then uniqAdjacent (b :: l) else a :: uniqAdjacent (b :: l)

/-- One line through `sed 's/\*\.//g'`: delete every occurrence of the two
character sequence `*.`, scanning left to right. -/
def stripStarDot : List Char → List Char
  | '*' :: '.' :: rest => stripStarDot rest
  | c :: rest => c :: stripStarDot rest
  | [] => []

/-- String form of `sed 's/\*\.//g'`. -/
def stripStarDotStr (s : String) : String := ⟨stripStarDot s.data⟩

/-- Whether a line would be dropped by `grep -v '@'`. -/
def containsAtSign (s : String) : Bool := s.data.contains '@'

/-- The normalization tail of the crt.sh provider's shell pipeline,
`sed 's/\*\.//g' | grep -v '@' | sort | uniq`, applied to the name lines
extracted from the crt.sh JSON answer by the preceding `jq`/`tr`/`sed`
stages (those stages only extract and split the raw field values and are
represented by the environment, see `DomainEnv.crtshRaw`). -/
def crtshPipeline (raw : List String) : List String :=
  uniqAdjacent (sortStr ((raw.map stripStarDotStr).filter (fun l => !containsAtSign l)))

/-- Case-folding, used to state the spec's "no two entries equal after
case-folding" property (the implementation itself never case-folds). -/
def lowerChar (c : Char) : Char :=
  if 'A' ≤ c ∧ c ≤ 'Z' then Char.ofNat (c.toNat + 32) else c

/-- Case-folded form of a string (ASCII letters only). -/
def lowerStr (s : String) : String := ⟨s.data.map lowerChar⟩

/-- Whether a hostname starts with the wildcard marker. -/
def startsWithStarDot (s : String) : Bool :=
  match s.data with
  | '*' :: '.' :: _ => true
  | _ => false

theorem charsLe_total (l₁ l₂ : List Char) : charsLe l₁ l₂ = true ∨ charsLe l₂ l₁ = true := by
  induction l₁ generalizing l₂ with
  | nil => left; rfl
  | cons a as ih =>
    cases l₂ with
    | nil => right; rfl
    | cons b bs =>
      simp only [charsLe]
      rcases Nat.lt_trichotomy a.toNat b.toNat with h | h | h
      · left; simp [h]
      · have h1 : ¬ a.toNat < b.toNat := by omega
        have h2 : ¬ b.toNat < a.toNat := by omega
        simpa [h1, h2] using ih bs
      · right; simp [h]

theorem charsLe_trans (l₁ l₂ l₃ : List Char) (h₁ : charsLe l₁ l₂ = true)
    (h₂ : charsLe l₂ l₃ = true) : charsLe l₁ l₃ = true := by
  induction l₁ generalizing l₂ l₃ with
  | nil => rfl
  | cons a as ih =>
    cases l₂ with
    | nil => simp [charsLe] at h₁
    | cons b bs =>
      cases l₃ with
      | nil => simp [charsLe] at h₂
      | cons c cs =>
        simp only [charsLe] at h₁ h₂ ⊢
        by_cases hab : a.toNat < b.toNat
        · by_cases hbc : b.toNat < c.toNat
          · simp [show a.toNat < c.toNat by omega]
          · simp only [if_pos hab, if_neg hbc] at h₁ h₂
            by_cases hcb : c.toNat < b.toNat
            · simp [hcb] at h₂
            · simp [show a.toNat < c.toNat by omega]
        · simp only [if_neg hab] at h₁
          by_cases hba : b.toNat < a.toNat
          · simp [hba] at h₁
          · simp only [if_neg hba] at h₁
            by_cases hbc : b.toNat < c.toNat
            · simp [show a.toNat < c.toNat by omega]
            · simp only [if_neg hbc] at h₂
              by_cases hcb : c.toNat < b.toNat
              · simp [hcb] at h₂
              · simp only [if_neg hcb] at h₂
                have hac : ¬ a.toNat < c.toNat := by omega
                have hca : ¬ c.toNat < a.toNat := by omega
                simp only [if_neg hac, if_neg hca]
                exact ih bs cs h₁ h₂

instance : IsTotal String (fun a b => strLe a b = true) :=
  ⟨fun a b => charsLe_total a.data b.data⟩

instance : IsTrans String (fun a b => strLe a b = true) :=
  ⟨fun a b c => charsLe_trans a.data b.data c.data⟩

theorem sortStr_sorted (l : List String) :
    List.Sorted (fun a b => strLe a b = true) (sortStr l) :=
  List.sorted_insertionSort _ l

theorem sortStr_perm (l : List String) : List.Perm (sortStr l) l :=
  List.perm_insertionSort _ l

theorem mem_sortStr {a : String} {l : List String} : a ∈ sortStr l ↔ a ∈ l :=
  (sortStr_perm l).mem_iff

theorem mem_phpArrayUniqueAux {a : String} {seen l : List String} :
    a ∈ phpArrayUniqueAux seen l ↔ a ∈ l ∧ a ∉ seen := by
  induction l generalizing seen with
  | nil => simp [phpArrayUniqueAux]
  | cons b l ih =>
    by_cases hb : b ∈ seen
    · simp only [phpArrayUniqueAux, if_pos hb, ih, List.mem_cons]
      constructor
      · rintro ⟨h1, h2⟩; exact ⟨Or.inr h1, h2⟩
      · rintro ⟨h1 | h1, h2⟩
        · exact absurd (h1 ▸ hb) h2
        · exact ⟨h1, h2⟩
    · simp only [phpArrayUniqueAux, if_neg hb, List.mem_cons, ih]
      constructor
      · rintro (rfl | ⟨h1, h2⟩)
        · exact ⟨Or.inl rfl, hb⟩
        · exact ⟨Or.inr h1, fun hc => h2 (by simp [hc])⟩
      · rintro ⟨rfl | h1, h2⟩
        · exact Or.inl rfl
        · by_cases hab : a = b
          · exact Or.inl hab
          · exact Or.inr ⟨h1, by simp [hab, h2]⟩

theorem phpArrayUniqueAux_nodup (seen l : List String) :
    (phpArrayUniqueAux seen l).Nodup := by
  induction l generalizing seen with
  | nil => exact List.nodup_nil
  | cons b l ih =>
    by_cases hb : b ∈ seen
    · simpa [phpArrayUniqueAux, if_pos hb] using ih seen
    · simp only [phpArrayUniqueAux, if_neg hb]
      refine List.Nodup.cons ?_ (ih (b :: seen))
      intro hmem
      exact (mem_phpArrayUniqueAux.mp hmem).2 (List.mem_cons_self _ _)

theorem phpArrayUnique_nodup (l : List String) : (phpArrayUnique l).Nodup :=
  phpArrayUniqueAux_nodup [] l

theorem mem_phpArrayUnique {a : String} {l : List String} :
    a ∈ phpArrayUnique l ↔ a ∈ l := by
  simp [phpArrayUnique, mem_phpArrayUniqueAux]

theorem mem_uniqAdjacent {a : String} {l : List String} (h : a ∈ uniqAdjacent l) :
    a ∈ l := by
  induction l with
  | nil => simp [uniqAdjacent] at h
  | cons b l ih =>
    cases l with
    | nil => simpa [uniqAdjacent] using h
    | cons c l =>
      simp only [uniqAdjacent] at h
      by_cases hbc : b = c
      · simp only [if_pos hbc] at h
        exact List.mem_cons_of_mem _ (ih h)
      · simp only [if_neg hbc, List.mem_cons] at h
        rcases h with rfl | h
        · exact List.mem_cons_self _ _
        · exact List.mem_cons_of_mem _ (ih h)

theorem ne_empty_of_mem_trimFilter {s : String} {ls : List String}
    (h : s ∈ trimFilter ls) : s ≠ "" := by
  intro hs
  have := (List.mem_filter.mp h).2
  rw [hs] at this
  simp [phpTruthyStr] at this

theorem not_containsAt_of_mem_crtshPipeline {s : String} {raw : List String}
    (h : s ∈ crtshPipeline raw) : containsAtSign s = false := by
  have h1 := mem_uniqAdjacent h
  have h2 := mem_sortStr.mp h1
  have := (List.mem_filter.mp h2).2
  simpa using this

/-! ### PHP values decoded from JSON

`runHttpx` parses each output line with `json_decode($line, true)` and keeps
the decoded value only when it is truthy.  Decoded values are modelled by
`PhpJson`; with `assoc = true` JSON objects decode to PHP arrays, so both
JSON arrays and objects are represented by `arr` (the embedding never
inspects keys, only emptiness). -/

inductive PhpJson where
  | null
  | bool (b : Bool)
  | num (n : Int)
  | str (s : String)
  | arr (elems : List PhpJson)

/-- PHP truthiness of a decoded value: `null`, `false`, `0`, `""`, `"0"` and
the empty array are falsy. -/
def phpTruthy : PhpJson → Bool
  | .null => false
  | .bool b => b
  | .num n => !(n == 0)
  | .str s => phpTruthyStr s
  | .arr es => !es.isEmpty

/-- The JSON-parsing loop of `runHttpx` (part_003 lines 224-236): for each
line, if the trimmed line is truthy, decode it and append the decoded value
when it is truthy; otherwise skip the line.  `json_decode` is a PHP builtin
and is supplied as the function `decode` (it returns `null` both for the
literal `null` and for malformed input, so a `none` result and a
`some .null` result are treated identically).  The loop is structurally
recursive, hence total: no line can abort the batch. -/
def parseHttpx (decode : String → Option PhpJson) : List String → List PhpJson
  | [] => []
  | line :: rest =>
    if phpTruthyStr (phpTrim line) then
      match decode line with
      | some v => if phpTruthy v then v :: parseHttpx decode rest else parseHttpx decode rest
      | none => parseHttpx decode rest
    else parseHttpx decode rest

/-- Model of PHP `json_decode` restricted to the scalar JSON literals this
development evaluates concretely; every other payload is conservatively
treated as undecodable.  On these inputs it agrees with `json_decode`. -/
def jsonDecodeLit (s : String) : Option PhpJson :=
  if s == "true" then some (.bool true)
  else if s == "false" then some (.bool false)
  else if s == "null" then some .null
  else if s == "0" then some (.num 0)
  else if s == "1" then some (.num 1)
  else none

theorem parseHttpx_append (decode : String → Option PhpJson) (xs ys : List String) :
    parseHttpx decode (xs ++ ys) = parseHttpx decode xs ++ parseHttpx decode ys := by
  induction xs with
  | nil => rfl
  | cons a xs ih =>
    simp only [List.cons_append, parseHttpx]
    by_cases h : phpTruthyStr (phpTrim a) = true
    · simp only [if_pos h]
      cases hd : decode a with
      | none => exact ih
      | some v =>
        by_cases hv : phpTruthy v = true
        · simp [hv, ih]
        · simp only [Bool.not_eq_true] at hv
          simp [hv, ih]
    · simp only [Bool.not_eq_true] at h
      simp [h, ih]

/-! ### The filesystem

Temporary files live under `TEMP_DIR` (config.php).  The filesystem is an
association list from path to file lines; `file()`, `file_put_contents`,
`unlink` and `file_exists` become `fsRead`, `fsWrite`, `fsUnlink` and
`fsExists`. -/

/-- Association-list lookup (first matching key wins). -/
def assocRead {V : Type} : List (String × V) → String → Option V
  | [], _ => none
  | e :: rest, k => if e.1 = k then some e.2 else assocRead rest k

/-- Remove every entry under a key. -/
def assocErase {V : Type} (l : List (String × V)) (k : String) : List (String × V) :=
  l.filter (fun e => !(e.1 == k))

/-- The filesystem: path to file contents (as lines). -/
abbrev FS := List (String × List String)

/-- PHP `file($p)` (up to line splitting): the contents of `p`, when present. -/
def fsRead (fs : FS) (p : String) : Option (List String) := assocRead fs p

/-- PHP `file_put_contents($p, ...)`: create or overwrite `p`. -/
def fsWrite (fs : FS) (p : String) (ls : List String) : FS := (p, ls) :: assocErase fs p

/-- PHP `unlink($p)` (guarded by `file_exists` in `cleanupFiles`; erasing an
absent path is a no-op, so the guard is dropped). -/
def fsUnlink (fs : FS) (p : String) : FS := assocErase fs p

/-- PHP `file_exists($p)`. -/
def fsExists (fs : FS) (p : String) : Bool := (fsRead fs p).isSome

theorem assocRead_erase_self {V : Type} (l : List (String × V)) (k : String) :
    assocRead (assocErase l k) k = none := by
  induction l with
  | nil => rfl
  | cons e rest ih =>
    by_cases h : e.1 = k
    · simpa [assocErase, h] using ih
    · simpa [assocErase, assocRead, h] using ih

theorem assocRead_erase_ne {V : Type} (l : List (String × V)) (k q : String) (h : q ≠ k) :
    assocRead (assocErase l k) q = assocRead l q := by
  induction l with
  | nil => rfl
  | cons e rest ih =>
    by_cases he : e.1 = k
    · have : ¬ e.1 = q := fun hq => h (hq ▸ he ▸ rfl)
      simp only [assocErase, List.filter]
      simp only [he, beq_self_eq_true, Bool.not_true]
      simpa [assocRead, this] using ih
    · simp only [assocErase, List.filter]
      have : (!(e.1 == k)) = true := by simp [he]
      rw [this]
      simp only [assocRead]
      by_cases hq : e.1 = q
      · simp [hq]
      · simpa [hq] using ih

theorem fsRead_write_self (fs : FS) (p : String) (ls : List String) :
    fsRead (fsWrite fs p ls) p = some ls := by
  simp [fsRead, fsWrite, assocRead]

theorem fsRead_write_ne (fs : FS) (p q : String) (ls : List String) (h : q ≠ p) :
    fsRead (fsWrite fs p ls) q = fsRead fs q := by
  simp only [fsRead, fsWrite, assocRead]
  have : ¬ p = q := fun hq => h hq.symm
  simp only [this, if_false]
  exact assocRead_erase_ne fs p q h

theorem fsExists_unlink_self (fs : FS) (p : String) :
    fsExists (fsUnlink fs p) p = false := by
  simp [fsExists, fsUnlink, fsRead, assocRead_erase_self]

theorem fsExists_unlink_of_absent (fs : FS) (p q : String) (h : fsExists fs q = false) :
    fsExists (fsUnlink fs p) q = false := by
  by_cases hq : q = p
  · subst hq; exact fsExists_unlink_self fs q
  · simpa [fsExists, fsUnlink, fsRead, assocRead_erase_ne fs p q hq] using h

theorem fsExists_write_of_absent (fs : FS) (p q : String) (ls : List String)
    (hq : q ≠ p) (h : fsExists fs q = false) :
    fsExists (fsWrite fs p ls) q = false := by
  simpa [fsExists, fsRead_write_ne fs p q ls hq] using h

/-! ### RedisService (part_002)

The Redis connection is either never established (`connect` swallowed the
connection error and `$this->redis` is `null`), established but raising on
every operation (the `catch` branches in `get`/`set`/`delete`), or live
with a key/value store.  Entry expiry is modelled as absence: a non-expired
entry is one present in the store.  Every operation is a total function:
no backend state makes an operation propagate an exception. -/

inductive RedisBackend (V : Type) where
  | absent
  | failing
  | live (store : List (String × V))

/-- `RedisService::get`: `null` when the backend is unavailable or raises,
otherwise the stored value, `null` when the key is missing or expired. -/
def RedisService.get {V : Type} : RedisBackend V → String → Option V
  | .absent, _ => none
  | .failing, _ => none
  | .live store, key => assocRead store key

/-- `RedisService::set` (`setex`): `false` when the backend is unavailable or
raises, otherwise store the value under the key and report `true`.  The
`expiration` argument drives backend-side expiry, which the model renders
as later absence. -/
def RedisService.set {V : Type} :
    RedisBackend V → String → Nat → V → Bool × RedisBackend V
  | .absent, _, _, _ => (false, .absent)
  | .failing, _, _, _ => (false, .failing)
  | .live store, key, _expiration, value =>
    (true, .live ((key, value) :: assocErase store key))

/-- `RedisService::delete`: `false` when the backend is unavailable or raises,
otherwise `del(key) > 0`, i.e. whether the key was present. -/
def RedisService.delete {V : Type} : RedisBackend V → String → Bool × RedisBackend V
  | .absent, _ => (false, .absent)
  | .failing, _ => (false, .failing)
  | .live store, key => ((assocRead store key).isSome, .live (assocErase store key))

/-- `RedisService::isAvailable`: whether the backend answers `ping`. -/
def RedisService.isAvailable {V : Type} : RedisBackend V → Bool
  | .live _ => true
  | _ => false

theorem RedisService.get_set_self {V : Type} (store : List (String × V))
    (key : String) (ttl : Nat) (value : V) :
    RedisService.get (RedisService.set (RedisBackend.live store) key ttl value).2 key
      = some value := by
  simp [RedisService.get, RedisService.set, assocRead]

/-! ### SubdomainService (part_003)

The service runs two providers for a domain (subfinder in the background,
the crt.sh pipeline in the background), waits up to 30 seconds for both
output files, merges whatever files exist, enriches with httpx, caches, and
cleans up its temporary files on the success and on the exception path
alike.  External behavior is an environment: what each provider would
write if it completes within the deadline (`none` = it failed or timed
out, so its file never appears), what `httpx` prints, the `uniqid()` value
and the abstract exception point. -/

/-- `TEMP_DIR` from config.php (`sys_get_temp_dir() . '/subdomain-finder'`). -/
def TEMP_DIR : String := "/tmp/subdomain-finder"

/-- `CACHE_EXPIRATION` from config.php: one hour. -/
def CACHE_EXPIRATION : Nat := 3600

/-- Path of the subfinder output file for one request. -/
def subfinderPath (domain tempId : String) : String :=
  TEMP_DIR ++ "/subfinder_" ++ domain ++ "_" ++ tempId ++ ".txt"

/-- Path of the crt.sh output file for one request. -/
def crtshPath (domain tempId : String) : String :=
  TEMP_DIR ++ "/crtsh_" ++ domain ++ "_" ++ tempId ++ ".txt"

/-- Path of the combined output file for one request. -/
def combinedPath (domain tempId : String) : String :=
  TEMP_DIR ++ "/domain_" ++ domain ++ "_" ++ tempId ++ ".txt"

/-- Path of the organization output file for one request. -/
def orgPath (orgName tempId : String) : String :=
  TEMP_DIR ++ "/org_" ++ orgName ++ "_" ++ tempId ++ ".txt"

/-- Path of the httpx input file for one request. -/
def httpxPath (tempId : String) : String :=
  TEMP_DIR ++ "/httpx_domains_" ++ tempId ++ ".txt"

/-- External behavior of one `getSubdomainsByDomain` request.  `failAt n`
means an exception is raised just before the n-th statement of the `try`
block (0 = before the provider launches, 1 = before `waitForFiles`,
2 = before `combineResults`, 3 = before `runHttpx`, 4 = before the cache
write); `none` means no statement raises. -/
structure DomainEnv where
  subfinderOut : Option (List String)
  crtshRaw : Option (List String)
  httpxLines : List String
  jsonDecode : String → Option PhpJson
  tempId : String
  failAt : Option Nat

/-- External behavior of one `getSubdomainsByOrganization` request;
`failAt` points are 0 = before `runCrtshOrg`, 1 = before `runHttpx`,
2 = before the cache write. -/
structure OrgEnv where
  crtshRaw : List String
  httpxLines : List String
  jsonDecode : String → Option PhpJson
  tempId : String
  failAt : Option Nat

/-- The result array of `getSubdomainsByDomain`. -/
structure DomainResult where
  domain : String
  subdomains : List String
  httpxResults : List PhpJson
  totalSubdomains : Nat

/-- The result array of `getSubdomainsByOrganization`. -/
structure OrgResult where
  organization : String
  domains : List String
  httpxResults : List PhpJson
  totalDomains : Nat

/-- Observable side effects of one request: how many provider processes were
invoked and how many times the httpx prober was invoked. -/
structure Effects where
  providersLaunched : Nat
  proberInvocations : Nat

/-- Everything one `getSubdomainsByDomain` call produces: the returned value
or the rethrown exception, and the final cache, filesystem and effects. -/
structure DomainOut where
  result : Except String DomainResult
  cache : RedisBackend DomainResult
  fs : FS
  eff : Effects

/-- Everything one `getSubdomainsByOrganization` call produces. -/
structure OrgOut where
  result : Except String OrgResult
  cache : RedisBackend OrgResult
  fs : FS
  eff : Effects

/-- `runSubfinder`: launch subfinder in the background.  Its effect is the
eventual write of its output file, which `waitForFiles` observes; a failed
or timed-out run writes nothing. -/
def SubdomainService.runSubfinder (out : Option (List String)) (outputFile : String) :
    List (String × List String) :=
  match out with
  | some ls => [(outputFile, ls)]
  | none => []

/-- `runCrtsh`: launch the crt.sh shell pipeline in the background.  The
pipeline normalizes the extracted name lines (`crtshPipeline`) before the
redirection writes the output file; a failed or timed-out run writes
nothing. -/
def SubdomainService.runCrtsh (raw : Option (List String)) (outputFile : String) :
    List (String × List String) :=
  match raw with
  | some ls => [(outputFile, crtshPipeline ls)]
  | none => []

/-- `waitForFiles`: poll up to the 30-second deadline for the given files.
Observably, the files of the providers that completed in time exist
afterwards; the function itself returns nothing and raises nothing on
timeout, so the call degrades to "whatever files are there". -/
def SubdomainService.waitForFiles (fs : FS) (pending : List (String × List String)) : FS :=
  pending.foldl (fun acc pr => fsWrite acc pr.1 pr.2) fs

/-- `cleanupFiles`: unlink each listed file if it exists. -/
def SubdomainService.cleanupFiles (fs : FS) (files : List String) : FS :=
  files.foldl fsUnlink fs

/-- The pure merging step of `combineResults` on the two file contents. -/
def combineLists (subfinderDomains crtshDomains : List String) : List String :=
  sortStr (phpArrayUnique (subfinderDomains ++ crtshDomains))

/-- `combineResults` (part_003 lines 179-202): per existing file, trim each
line and drop falsy lines; merge, deduplicate with `array_unique`, `sort`;
write the combined list to the combined output file and return it. -/
def SubdomainService.combineResults (fs : FS) (subfinderOutput crtshOutput combinedOutput : String) :
    List String × FS :=
  let subfinderDomains :=
    match fsRead fs subfinderOutput with
    | some ls => trimFilter ls
    | none => []
  let crtshDomains :=
    match fsRead fs crtshOutput with
    | some ls => trimFilter ls
    | none => []
  let combined := combineLists subfinderDomains crtshDomains
  (combined, fsWrite fs combinedOutput combined)

/-- `runHttpx` (part_003 lines 210-242): given no domains, return `[]` at
once without creating the input file or invoking httpx; otherwise write the
input file, invoke httpx once, parse its output lines, and unlink the input
file.  Returns the records, the filesystem and the number of prober
invocations. -/
def SubdomainService.runHttpx (decode : String → Option PhpJson) (outLines : List String)
    (tempId : String) (domains : List String) (fs : FS) : List PhpJson × FS × Nat :=
  if domains.isEmpty then ([], fs, 0)
  else
    let tempFile := httpxPath tempId
    let fs1 := fsWrite fs tempFile domains
    let results := parseHttpx decode outLines
    let fs2 := fsUnlink fs1 tempFile
    (results, fs2, 1)

/-- The `try` block of `getSubdomainsByDomain`: launch both providers, wait,
combine, enrich, build the result array and (when `useCache`) store it.
The final match renders the abstract exception point: at `failAt n` the
call rethrows with the filesystem as of that statement and the cache
untouched. -/
def SubdomainService.tryDomain (env : DomainEnv) (cache : RedisBackend DomainResult)
    (fs : FS) (domain : String) (useCache : Bool) (cacheKey : String) : DomainOut :=
  let subP := subfinderPath domain env.tempId
  let crtP := crtshPath domain env.tempId
  let combP := combinedPath domain env.tempId
  let pending := SubdomainService.runSubfinder env.subfinderOut subP ++
    SubdomainService.runCrtsh env.crtshRaw crtP
  let fs1 := SubdomainService.waitForFiles fs pending
  let co := SubdomainService.combineResults fs1 subP crtP combP
  let hx := SubdomainService.runHttpx env.jsonDecode env.httpxLines env.tempId co.1 co.2
  let result : DomainResult := ⟨domain, co.1, hx.1, co.1.length⟩
  let cache1 := if useCache
    then (RedisService.set cache cacheKey CACHE_EXPIRATION result).2
    else cache
  match env.failAt with
  | some 0 => ⟨.error "exception", cache, fs, ⟨0, 0⟩⟩
  | some 1 => ⟨.error "exception", cache, fs, ⟨2, 0⟩⟩
  | some 2 => ⟨.error "exception", cache, fs1, ⟨2, 0⟩⟩
  | some 3 => ⟨.error "exception", cache, co.2, ⟨2, 0⟩⟩
  | some 4 => ⟨.error "exception", cache, hx.2.1, ⟨2, hx.2.2⟩⟩
  | _ => ⟨.ok result, cache1, hx.2.1, ⟨2, hx.2.2⟩⟩

/-- `getSubdomainsByDomain` (part_003 lines 18-70): serve a truthy cached
value when `useCache` is set (every value this service caches is a
non-empty array, hence truthy); otherwise run the `try` block and, on
return or on exception alike, clean up the three temporary files. -/
def SubdomainService.getSubdomainsByDomain (env : DomainEnv) (cache : RedisBackend DomainResult)
    (fs : FS) (domain : String) (useCache : Bool) : DomainOut :=
  let cacheKey := "domain:" ++ domain
  match useCache, RedisService.get cache cacheKey with
  | true, some cachedData => ⟨.ok cachedData, cache, fs, ⟨0, 0⟩⟩
  | _, _ =>
    let o := SubdomainService.tryDomain env cache fs domain useCache cacheKey
    ⟨o.result, o.cache,
      SubdomainService.cleanupFiles o.fs
        [subfinderPath domain env.tempId, crtshPath domain env.tempId,
          combinedPath domain env.tempId],
      o.eff⟩

/-- `runCrtshOrg` (part_003 lines 156-169): run the crt.sh pipeline for an
organization synchronously.  The shell redirection creates the output file
even when the network fetch produced nothing, so after `waitForFiles` the
file exists and `file_exists` succeeds; the trimmed, falsy-filtered lines
are returned. -/
def SubdomainService.runCrtshOrg (raw : List String) (fs : FS) (outputFile : String) :
    List String × FS :=
  let fs1 := fsWrite fs outputFile (crtshPipeline raw)
  match fsRead fs1 outputFile with
  | some ls => (trimFilter ls, fs1)
  | none => ([], fs1)

/-- The `try` block of `getSubdomainsByOrganization`. -/
def SubdomainService.tryOrg (env : OrgEnv) (cache : RedisBackend OrgResult)
    (fs : FS) (orgName : String) (useCache : Bool) (cacheKey : String) : OrgOut :=
  let orgP := orgPath orgName env.tempId
  let ro := SubdomainService.runCrtshOrg env.crtshRaw fs orgP
  let hx := SubdomainService.runHttpx env.jsonDecode env.httpxLines env.tempId ro.1 ro.2
  let result : OrgResult := ⟨orgName, ro.1, hx.1, ro.1.length⟩
  let cache1 := if useCache
    then (RedisService.set cache cacheKey CACHE_EXPIRATION result).2
    else cache
  match env.failAt with
  | some 0 => ⟨.error "exception", cache, fs, ⟨0, 0⟩⟩
  | some 1 => ⟨.error "exception", cache, ro.2, ⟨1, 0⟩⟩
  | some 2 => ⟨.error "exception", cache, hx.2.1, ⟨1, hx.2.2⟩⟩
  | _ => ⟨.ok result, cache1, hx.2.1, ⟨1, hx.2.2⟩⟩

/-- `getSubdomainsByOrganization` (part_003 lines 79-122). -/
def SubdomainService.getSubdomainsByOrganization (env : OrgEnv) (cache : RedisBackend OrgResult)
    (fs : FS) (orgName : String) (useCache : Bool) : OrgOut :=
  let cacheKey := "org:" ++ orgName
  match useCache, RedisService.get cache cacheKey with
  | true, some cachedData => ⟨.ok cachedData, cache, fs, ⟨0, 0⟩⟩
  | _, _ =>
    let o := SubdomainService.tryOrg env cache fs orgName useCache cacheKey
    ⟨o.result, o.cache,
      SubdomainService.cleanupFiles o.fs [orgPath orgName env.tempId],
      o.eff⟩

/-! ### JobTracker -/

/-- Job states per spec section 4.4. -/
inductive JobStatus where
  | pending
  | processing
  | completed
  | error
deriving DecidableEq

/-- A Job is terminal once `completed` or `error`. -/
def JobStatus.isTerminal : JobStatus → Bool
  | .completed => true
  | .error => true
  | _ => false

/-- A background discovery job, identified by its normalized target. -/
structure Job where
  id : String
  status : JobStatus
  progress : Nat
deriving DecidableEq

/-- The Job registry: normalized target to Job. -/
abbrev JobRegistry := List (String × Job)

/-- Modelled from the spec: the JobTracker's start-discovery entry point
(the backend application implementing the background-job state machine is
not among the source files; only its container entrypoint and its HTTP
consumers are).  Per spec sections 3 and 4.4, starting a discovery for a
target that already has a non-terminal Job returns the existing Job handle
and starts no new pipeline; otherwise a fresh pending Job is registered and
the fan-out starts.  The returned Bool reports whether a new provider
fan-out was started. -/
def JobTracker.startDiscovery (reg : JobRegistry) (target : String) :
    JobRegistry × Job × Bool :=
  match assocRead reg target with
  | some j =>
    if j.status.isTerminal then
      let fresh : Job := ⟨target, .pending, 0⟩
      ((target, fresh) :: assocErase reg target, fresh, true)
    else
      (reg, j, false)
  | none =>
    let fresh : Job := ⟨target, .pending, 0⟩
    ((target, fresh) :: reg, fresh, true)

/-! ### Helper lemmas about cleanup and the filesystem chains -/

theorem cleanupFiles_absent (files : List String) (fs : FS) (p : String)
    (h : fsExists fs p = false) :
    fsExists (SubdomainService.cleanupFiles fs files) p = false := by
  induction files generalizing fs with
  | nil => exact h
  | cons a rest ih =>
    exact ih (fsUnlink fs a) (fsExists_unlink_of_absent fs a p h)

theorem cleanupFiles_mem (files : List String) (fs : FS) (p : String)
    (h : p ∈ files) :
    fsExists (SubdomainService.cleanupFiles fs files) p = false := by
  induction files generalizing fs with
  | nil => exact absurd h (List.not_mem_nil p)
  | cons a rest ih =>
    by_cases hp : p ∈ rest
    · exact ih (fsUnlink fs a) hp
    · have : p = a := by
        rcases List.mem_cons.mp h with h1 | h1
        · exact h1
        · exact absurd h1 hp
      subst this
      exact cleanupFiles_absent rest _ p (fsExists_unlink_self fs p)

/-! ### Sample inputs used by witnesses -/

/-- A sample environment where both providers fail (no output file appears)
and nothing raises. -/
def sampleDomainEnv : DomainEnv :=
  ⟨none, none, [], jsonDecodeLit, "t1", none⟩

/-- A sample organization environment with an empty crt.sh answer. -/
def sampleOrgEnv : OrgEnv :=
  ⟨[], [], jsonDecodeLit, "t1", none⟩

/-! ### The claims -/

/-- C8: given zero input hosts, `runHttpx` returns the empty record list at
once, leaves the filesystem untouched (no input file is created) and
invokes the prober zero times. -/
theorem C8_probe_empty (decode : String → Option PhpJson) (outLines : List String)
    (tempId : String) (fs : FS) :
    SubdomainService.runHttpx decode outLines tempId [] fs = ([], fs, 0) := rfl

/-- C6: when the cache backend is unavailable (`connect` failed and the
handle is null) or raises on every operation, `get` returns null, `set`
and `delete` return `false`, and the backend state is unchanged.  All
three operations are total Lean functions, so no exception reaches the
caller. -/
theorem C6_cache_degrades (V : Type) (k : String) (ttl : Nat) (v : V) :
    RedisService.get (RedisBackend.absent : RedisBackend V) k = none ∧
    RedisService.set (RedisBackend.absent : RedisBackend V) k ttl v = (false, .absent) ∧
    RedisService.delete (RedisBackend.absent : RedisBackend V) k = (false, .absent) ∧
    RedisService.get (RedisBackend.failing : RedisBackend V) k = none ∧
    RedisService.set (RedisBackend.failing : RedisBackend V) k ttl v = (false, .failing) ∧
    RedisService.delete (RedisBackend.failing : RedisBackend V) k = (false, .failing) :=
  ⟨rfl, rfl, rfl, rfl, rfl, rfl⟩

/-- C5: starting a discovery for a target whose registered Job is
non-terminal returns the existing Job handle, leaves the registry
unchanged and starts no duplicate provider fan-out. -/
theorem C5_at_most_one_active_job (reg : JobRegistry) (target : String) (j : Job)
    (hfind : assocRead reg target = some j)
    (hactive : j.status.isTerminal = false) :
    JobTracker.startDiscovery reg target = (reg, j, false) := by
  simp [JobTracker.startDiscovery, hfind, hactive]

/-- Witness for C5 at a Job in the `processing` state. -/
theorem C5_at_most_one_active_job_witness :
    JobTracker.startDiscovery [("example.com", ⟨"example.com", .processing, 50⟩)] "example.com"
      = ([("example.com", ⟨"example.com", .processing, 50⟩)],
          ⟨"example.com", .processing, 50⟩, false) :=
  C5_at_most_one_active_job _ _ _ rfl rfl

/-- C9 counterexample: the line "false" is a valid JSON scalar (it decodes
to the PHP value `false`), is not skipped by the emptiness check, and yet
contributes no record, because the loop keeps only truthy decoded values;
this refutes "every validly decoded line contributes one record". -/
theorem C9_counterexample :
    jsonDecodeLit "false" = some (.bool false) ∧
    phpTruthyStr (phpTrim "false") = true ∧
    parseHttpx jsonDecodeLit ["false"] = [] :=
  ⟨rfl, rfl, rfl⟩

/-- C9 (amended): a line whose trimmed form is PHP-falsy, or that fails to
decode, or that decodes to a PHP-falsy value, is skipped individually (the
rest of the batch is parsed exactly as if the line were not there), and a
line that decodes to a truthy value contributes exactly one record in
place; `parseHttpx` is structurally recursive, so no line aborts the
batch. -/
theorem C9_parse_skips_individually (decode : String → Option PhpJson)
    (pre post : List String) (line : String) (v : PhpJson) :
    ((phpTruthyStr (phpTrim line) = false ∨ decode line = none ∨
        (∃ u, decode line = some u ∧ phpTruthy u = false)) →
      parseHttpx decode (pre ++ line :: post) = parseHttpx decode (pre ++ post)) ∧
    (phpTruthyStr (phpTrim line) = true → decode line = some v → phpTruthy v = true →
      parseHttpx decode (pre ++ line :: post)
        = parseHttpx decode pre ++ v :: parseHttpx decode post) := by
  constructor
  · intro h
    have hs : parseHttpx decode [line] = [] := by
      rcases h with h | h | ⟨u, hu, hf⟩
      · simp [parseHttpx, h]
      · cases htr : phpTruthyStr (phpTrim line) <;> simp [parseHttpx, htr, h]
      · cases htr : phpTruthyStr (phpTrim line) <;> simp [parseHttpx, htr, hu, hf]
    have : pre ++ line :: post = pre ++ [line] ++ post := by simp
    rw [this, parseHttpx_append, parseHttpx_append, parseHttpx_append, hs]
    simp
  · intro h1 h2 h3
    have hs : parseHttpx decode [line] = [v] := by
      simp [parseHttpx, h1, h2, h3]
    have : pre ++ line :: post = pre ++ [line] ++ post := by simp
    rw [this, parseHttpx_append, parseHttpx_append, hs]
    simp
  
/-- Witness for C9: a malformed middle line is dropped without disturbing
the rest of the batch, and a truthy line contributes its record. -/
theorem C9_parse_skips_individually_witness :
    parseHttpx jsonDecodeLit ["true", "not json", "true"]
      = parseHttpx jsonDecodeLit ["true", "true"] ∧
    parseHttpx jsonDecodeLit ["true"]
      = parseHttpx jsonDecodeLit [] ++ PhpJson.bool true :: parseHttpx jsonDecodeLit [] :=
  ⟨(C9_parse_skips_individually jsonDecodeLit ["true"] ["true"] "not json" .null).1
      (Or.inr (Or.inl rfl)),
   (C9_parse_skips_individually jsonDecodeLit [] [] "true" (.bool true)).2 rfl rfl rfl⟩

/-- C3: when `useCache` is set and a non-expired entry exists under the
target's key, both discovery operations return the cached result as-is and
perform no work: the cache, the filesystem and the effect counters are
untouched — zero providers launched, zero prober invocations. -/
theorem C3_cache_hit (envD : DomainEnv) (cacheD : RedisBackend DomainResult) (fsD : FS)
    (domain : String) (r : DomainResult)
    (envO : OrgEnv) (cacheO : RedisBackend OrgResult) (fsO : FS)
    (orgName : String) (ro : OrgResult) :
    (RedisService.get cacheD ("domain:" ++ domain) = some r →
      SubdomainService.getSubdomainsByDomain envD cacheD fsD domain true
        = ⟨.ok r, cacheD, fsD, ⟨0, 0⟩⟩) ∧
    (RedisService.get cacheO ("org:" ++ orgName) = some ro →
      SubdomainService.getSubdomainsByOrganization envO cacheO fsO orgName true
        = ⟨.ok ro, cacheO, fsO, ⟨0, 0⟩⟩) := by
  constructor
  · intro h
    simp [SubdomainService.getSubdomainsByDomain, h]
  · intro h
    simp [SubdomainService.getSubdomainsByOrganization, h]

/-- Witness for C3 on a one-entry cache for each flow. -/
theorem C3_cache_hit_witness :
    SubdomainService.getSubdomainsByDomain sampleDomainEnv
        (.live [("domain:ex", ⟨"ex", ["a.ex"], [], 1⟩)]) [] "ex" true
      = ⟨.ok ⟨"ex", ["a.ex"], [], 1⟩, .live [("domain:ex", ⟨"ex", ["a.ex"], [], 1⟩)],
          [], ⟨0, 0⟩⟩ ∧
    SubdomainService.getSubdomainsByOrganization sampleOrgEnv
        (.live [("org:acme", ⟨"acme", ["acme.com"], [], 1⟩)]) [] "acme" true
      = ⟨.ok ⟨"acme", ["acme.com"], [], 1⟩, .live [("org:acme", ⟨"acme", ["acme.com"], [], 1⟩)],
          [], ⟨0, 0⟩⟩ :=
  ⟨(C3_cache_hit sampleDomainEnv _ [] "ex" _ sampleOrgEnv (.live []) [] "acme" ⟨"acme", [], [], 0⟩).1 rfl,
   (C3_cache_hit sampleDomainEnv (.live []) [] "ex" ⟨"ex", [], [], 0⟩ sampleOrgEnv _ [] "acme" _).2 rfl⟩

theorem combineLists_nodup (d1 d2 : List String) : (combineLists d1 d2).Nodup :=
  ((sortStr_perm (phpArrayUnique (d1 ++ d2))).nodup_iff).mpr
    (phpArrayUnique_nodup (d1 ++ d2))

theorem combineLists_ne_empty {s : String} {d1 d2 : List String}
    (h1 : ∀ x ∈ d1, x ≠ "") (h2 : ∀ x ∈ d2, x ≠ "")
    (hs : s ∈ combineLists d1 d2) : s ≠ "" := by
  have := mem_phpArrayUnique.mp (mem_sortStr.mp hs)
  rcases List.mem_append.mp this with h | h
  · exact h1 s h
  · exact h2 s h

/-- C1 counterexample: the merger neither case-folds nor strips wildcard
markers nor drops email-like entries.  With a subfinder output file
containing a leading-wildcard entry, an upper-case entry and an `@` entry,
and a crt.sh output file containing the lower-case twin, the merged set
keeps the wildcard entry, keeps the `@` entry, and keeps two distinct
entries that are equal after case-folding. -/
theorem C1_merger_counterexample :
    (SubdomainService.combineResults
        [("subf.txt", ["*.e.com", "API.x.com", "mail@x.com"]), ("crt.txt", ["api.x.com"])]
        "subf.txt" "crt.txt" "comb.txt").1
      = ["*.e.com", "API.x.com", "api.x.com", "mail@x.com"] ∧
    startsWithStarDot "*.e.com" = true ∧
    containsAtSign "mail@x.com" = true ∧
    ("API.x.com" : String) ≠ "api.x.com" ∧
    lowerStr "API.x.com" = lowerStr "api.x.com" := by
  refine ⟨by decide, rfl, rfl, by decide, by decide⟩

/-- C1 (amended): the merge step is a total function; its output is sorted
in byte order, contains no two entries that are equal as exact strings,
and contains no empty entry; filtering of `@` entries (and wildcard
stripping) is performed only by the crt.sh provider's own pipeline on its
own output, not by the merger — the merger's output contains no `@` entry
or wildcard entry only to the extent its input files do. -/
theorem C1_merger_amended (fs : FS) (subfinderOutput crtshOutput combinedOutput : String)
    (raw : List String) :
    List.Sorted (fun a b => strLe a b = true)
      (SubdomainService.combineResults fs subfinderOutput crtshOutput combinedOutput).1 ∧
    (SubdomainService.combineResults fs subfinderOutput crtshOutput combinedOutput).1.Nodup ∧
    (∀ s ∈ (SubdomainService.combineResults fs subfinderOutput crtshOutput combinedOutput).1,
      s ≠ "") ∧
    (∀ s ∈ crtshPipeline raw, containsAtSign s = false) := by
  refine ⟨?_, ?_, ?_, fun s hs => not_containsAt_of_mem_crtshPipeline hs⟩
  · cases h1 : fsRead fs subfinderOutput <;> cases h2 : fsRead fs crtshOutput <;>
      simp only [SubdomainService.combineResults, h1, h2, combineLists] <;>
      exact sortStr_sorted _
  · cases h1 : fsRead fs subfinderOutput <;> cases h2 : fsRead fs crtshOutput <;>
      simp only [SubdomainService.combineResults, h1, h2] <;>
      exact combineLists_nodup _ _
  · intro s hs
    cases h1 : fsRead fs subfinderOutput <;> cases h2 : fsRead fs crtshOutput <;>
      simp only [SubdomainService.combineResults, h1, h2] at hs <;>
      refine combineLists_ne_empty ?_ ?_ hs <;>
      first
        | (intro x hx; exact absurd hx (List.not_mem_nil x))
        | (intro x hx; exact ne_empty_of_mem_trimFilter hx)

/-- Witness for C1 (amended) on a concrete two-file filesystem. -/
theorem C1_merger_amended_witness :
    (SubdomainService.combineResults [("a", ["b.c", "a.c"])] "a" "b" "c").1.Nodup ∧
    ("a.c" : String) ≠ "" :=
  ⟨(C1_merger_amended [("a", ["b.c", "a.c"])] "a" "b" "c" []).2.1,
   (C1_merger_amended [("a", ["b.c", "a.c"])] "a" "b" "c" []).2.2.1 "a.c" (by decide)⟩

theorem fsRead_eq_none_of_not_exists (fs : FS) (p : String) (h : fsExists fs p = false) :
    fsRead fs p = none := by
  cases hr : fsRead fs p with
  | none => rfl
  | some ls => simp [fsExists, hr] at h

/-- C2 counterexample: with both providers failing (no output file ever
appears) and an empty, available cache, `getSubdomainsByDomain` does not
fail — it returns a successful result with an empty subdomain list — and
it writes that empty result to the cache. -/
theorem C2_total_failure_counterexample :
    (SubdomainService.getSubdomainsByDomain sampleDomainEnv (.live []) [] "e.com" true).result
      = .ok ⟨"e.com", [], [], 0⟩ ∧
    RedisService.get
        (SubdomainService.getSubdomainsByDomain sampleDomainEnv (.live []) [] "e.com" true).cache
        "domain:e.com"
      = some ⟨"e.com", [], [], 0⟩ := by
  refine ⟨rfl, rfl⟩

/-- C2 (amended): when every provider fails or times out (neither output
file appears before the deadline) and the cache misses, the call returns a
successful result whose subdomain list is empty, and — far from leaving
the cache unchanged — it writes that empty result under the target's key.
No `DiscoveryUnavailable`-style error exists on this path. -/
theorem C2_total_failure_amended (env : DomainEnv) (store : List (String × DomainResult))
    (fs : FS) (domain : String)
    (hfail : env.failAt = none)
    (hsub : env.subfinderOut = none)
    (hcrt : env.crtshRaw = none)
    (hmiss : assocRead store ("domain:" ++ domain) = none)
    (hs : fsExists fs (subfinderPath domain env.tempId) = false)
    (hc : fsExists fs (crtshPath domain env.tempId) = false) :
    (SubdomainService.getSubdomainsByDomain env (.live store) fs domain true).result
      = .ok ⟨domain, [], [], 0⟩ ∧
    RedisService.get
        (SubdomainService.getSubdomainsByDomain env (.live store) fs domain true).cache
        ("domain:" ++ domain)
      = some ⟨domain, [], [], 0⟩ := by
  have hrs := fsRead_eq_none_of_not_exists fs _ hs
  have hrc := fsRead_eq_none_of_not_exists fs _ hc
  simp only [SubdomainService.getSubdomainsByDomain, RedisService.get, hmiss]
  simp only [SubdomainService.tryDomain, hfail, hsub, hcrt,
    SubdomainService.runSubfinder, SubdomainService.runCrtsh, List.nil_append,
    SubdomainService.waitForFiles, List.foldl_nil,
    SubdomainService.combineResults, hrs, hrc]
  exact ⟨rfl, RedisService.get_set_self store _ CACHE_EXPIRATION _⟩

/-- Witness for C2 (amended) at a concrete empty cache and filesystem. -/
theorem C2_total_failure_amended_witness :
    (SubdomainService.getSubdomainsByDomain sampleDomainEnv (.live []) [] "x.org" true).result
      = .ok ⟨"x.org", [], [], 0⟩ ∧
    RedisService.get
        (SubdomainService.getSubdomainsByDomain sampleDomainEnv (.live []) [] "x.org" true).cache
        "domain:x.org"
      = some ⟨"x.org", [], [], 0⟩ :=
  C2_total_failure_amended sampleDomainEnv [] [] "x.org" rfl rfl rfl rfl rfl rfl

theorem tryDomain_ok (env : DomainEnv) (cache : RedisBackend DomainResult) (fs : FS)
    (domain cacheKey : String) (hfail : env.failAt = none) :
    ∃ r : DomainResult,
      (SubdomainService.tryDomain env cache fs domain true cacheKey).result = .ok r ∧
      (SubdomainService.tryDomain env cache fs domain true cacheKey).cache
        = (RedisService.set cache cacheKey CACHE_EXPIRATION r).2 := by
  simp only [SubdomainService.tryDomain, hfail, if_true]
  exact ⟨_, rfl, rfl⟩

/-- C7: running discovery twice in succession for the same target with
`useCache` set, against an available backend, yields on the first call a
successful result `r`, and the second call returns exactly `r` straight
from the cache: no provider is launched and no prober is invoked, and the
cache and filesystem are untouched by the second call.  (When the first
call already hit the cache, both calls return the same cached result.) -/
theorem C7_idempotence (env1 env2 : DomainEnv) (store : List (String × DomainResult))
    (fs1 fs2 : FS) (domain : String) (hfail : env1.failAt = none) :
    ∃ r : DomainResult,
      (SubdomainService.getSubdomainsByDomain env1 (.live store) fs1 domain true).result
        = .ok r ∧
      SubdomainService.getSubdomainsByDomain env2
          (SubdomainService.getSubdomainsByDomain env1 (.live store) fs1 domain true).cache
          fs2 domain true
        = ⟨.ok r,
            (SubdomainService.getSubdomainsByDomain env1 (.live store) fs1 domain true).cache,
            fs2, ⟨0, 0⟩⟩ := by
  cases hget : assocRead store ("domain:" ++ domain) with
  | some r =>
    have h1 : SubdomainService.getSubdomainsByDomain env1 (.live store) fs1 domain true
        = ⟨.ok r, .live store, fs1, ⟨0, 0⟩⟩ := by
      simp [SubdomainService.getSubdomainsByDomain, RedisService.get, hget]
    refine ⟨r, by rw [h1], ?_⟩
    rw [h1]
    simp [SubdomainService.getSubdomainsByDomain, RedisService.get, hget]
  | none =>
    obtain ⟨r, hr, hc⟩ :=
      tryDomain_ok env1 (.live store) fs1 domain ("domain:" ++ domain) hfail
    have h1 : (SubdomainService.getSubdomainsByDomain env1 (.live store) fs1 domain true).result
        = .ok r := by
      simp only [SubdomainService.getSubdomainsByDomain, RedisService.get, hget]
      exact hr
    have h2 : (SubdomainService.getSubdomainsByDomain env1 (.live store) fs1 domain true).cache
        = (RedisService.set (.live store) ("domain:" ++ domain) CACHE_EXPIRATION r).2 := by
      simp only [SubdomainService.getSubdomainsByDomain, RedisService.get, hget]
      exact hc
    refine ⟨r, h1, ?_⟩
    rw [h2]
    simp [SubdomainService.getSubdomainsByDomain, RedisService.set, RedisService.get, assocRead]

/-- Witness for C7 at a concrete environment where both providers fail. -/
theorem C7_idempotence_witness :
    ∃ r : DomainResult,
      (SubdomainService.getSubdomainsByDomain sampleDomainEnv (.live []) [] "ex.net" true).result
        = .ok r ∧
      SubdomainService.getSubdomainsByDomain sampleDomainEnv
          (SubdomainService.getSubdomainsByDomain sampleDomainEnv (.live []) [] "ex.net" true).cache
          [] "ex.net" true
        = ⟨.ok r,
            (SubdomainService.getSubdomainsByDomain sampleDomainEnv (.live []) [] "ex.net" true).cache,
            [], ⟨0, 0⟩⟩ :=
  C7_idempotence sampleDomainEnv sampleDomainEnv [] [] [] "ex.net" rfl

theorem subfinderPath_ne_crtshPath (d t : String) : subfinderPath d t ≠ crtshPath d t := by
  intro h
  have hl := congrArg String.length h
  have e1 : (TEMP_DIR ++ "/subfinder_").length = 32 := rfl
  have e2 : (TEMP_DIR ++ "/crtsh_").length = 28 := rfl
  have e3 : ("_" : String).length = 1 := rfl
  have e4 : (".txt" : String).length = 4 := rfl
  simp only [subfinderPath, crtshPath, String.length_append, e3, e4] at hl
  rw [show TEMP_DIR.length + ("/subfinder_" : String).length = 32 from rfl,
    show TEMP_DIR.length + ("/crtsh_" : String).length = 28 from rfl] at hl
  omega

/-- C4: when one of the two providers fails or times out (its output file
never appears) and the other succeeds, the discovery call does not error:
it returns a successful result whose subdomain list is exactly the merge
of the surviving provider's output.  The first conjunct covers a crt.sh
failure, the second a subfinder failure. -/
theorem C4_single_provider_failure (env : DomainEnv) (cache : RedisBackend DomainResult) (fs : FS)
    (domain : String) (out raw : List String)
    (hfail : env.failAt = none)
    (hs : fsExists fs (subfinderPath domain env.tempId) = false)
    (hc : fsExists fs (crtshPath domain env.tempId) = false) :
    (env.subfinderOut = some out → env.crtshRaw = none →
      ∃ r : DomainResult,
        (SubdomainService.getSubdomainsByDomain env cache fs domain false).result = .ok r ∧
        r.subdomains = combineLists (trimFilter out) []) ∧
    (env.subfinderOut = none → env.crtshRaw = some raw →
      ∃ r : DomainResult,
        (SubdomainService.getSubdomainsByDomain env cache fs domain false).result = .ok r ∧
        r.subdomains = combineLists [] (trimFilter (crtshPipeline raw))) := by
  have hne := subfinderPath_ne_crtshPath domain env.tempId
  constructor
  · intro hso hcn
    have hr1 : fsRead (fsWrite fs (subfinderPath domain env.tempId) out)
        (subfinderPath domain env.tempId) = some out := fsRead_write_self _ _ _
    have hr2 : fsRead (fsWrite fs (subfinderPath domain env.tempId) out)
        (crtshPath domain env.tempId) = none := by
      rw [fsRead_write_ne _ _ _ _ (fun hq => hne hq.symm)]
      exact fsRead_eq_none_of_not_exists fs _ hc
    simp only [SubdomainService.getSubdomainsByDomain, SubdomainService.tryDomain,
      hfail, hso, hcn, SubdomainService.runSubfinder, SubdomainService.runCrtsh,
      List.append_nil, SubdomainService.waitForFiles, List.foldl_cons, List.foldl_nil,
      SubdomainService.combineResults, hr1, hr2]
    exact ⟨_, rfl, rfl⟩
  · intro hsn hcs
    have hr1 : fsRead (fsWrite fs (crtshPath domain env.tempId) (crtshPipeline raw))
        (subfinderPath domain env.tempId) = none := by
      rw [fsRead_write_ne _ _ _ _ hne]
      exact fsRead_eq_none_of_not_exists fs _ hs
    have hr2 : fsRead (fsWrite fs (crtshPath domain env.tempId) (crtshPipeline raw))
        (crtshPath domain env.tempId) = some (crtshPipeline raw) := fsRead_write_self _ _ _
    simp only [SubdomainService.getSubdomainsByDomain, SubdomainService.tryDomain,
      hfail, hsn, hcs, SubdomainService.runSubfinder, SubdomainService.runCrtsh,
      List.nil_append, SubdomainService.waitForFiles, List.foldl_cons, List.foldl_nil,
      SubdomainService.combineResults, hr1, hr2]
    exact ⟨_, rfl, rfl⟩

/-- Witness for C4: a surviving subfinder output of two hosts, crt.sh dead. -/
theorem C4_single_provider_failure_witness :
    ∃ r : DomainResult,
      (SubdomainService.getSubdomainsByDomain
          ⟨some ["b.e.com", "a.e.com"], none, [], jsonDecodeLit, "t1", none⟩
          (.live []) [] "e.com" false).result = .ok r ∧
      r.subdomains = combineLists (trimFilter ["b.e.com", "a.e.com"]) [] :=
  (C4_single_provider_failure ⟨some ["b.e.com", "a.e.com"], none, [], jsonDecodeLit, "t1", none⟩
      (.live []) [] "e.com" ["b.e.com", "a.e.com"] [] rfl rfl rfl).1 rfl rfl

theorem waitForFiles_absent (pending : List (String × List String)) (fs : FS) (p : String)
    (h : fsExists fs p = false) (hp : ∀ pr ∈ pending, p ≠ pr.1) :
    fsExists (SubdomainService.waitForFiles fs pending) p = false := by
  induction pending generalizing fs with
  | nil => exact h
  | cons a rest ih =>
    have ha : p ≠ a.1 := hp a (List.mem_cons_self _ _)
    exact ih (fsWrite fs a.1 a.2)
      (fsExists_write_of_absent fs a.1 p a.2 ha h)
      (fun pr hpr => hp pr (List.mem_cons_of_mem _ hpr))

theorem runHttpx_fs_absent (decode : String → Option PhpJson) (outLines : List String)
    (tempId : String) (domains : List String) (fs : FS)
    (h : fsExists fs (httpxPath tempId) = false) :
    fsExists (SubdomainService.runHttpx decode outLines tempId domains fs).2.1
      (httpxPath tempId) = false := by
  by_cases hd : domains.isEmpty
  · simpa [SubdomainService.runHttpx, hd] using h
  · simp only [SubdomainService.runHttpx, hd, if_false, Bool.false_eq_true]
    exact fsExists_unlink_self _ _

theorem tryDomain_httpx_absent (env : DomainEnv) (cache : RedisBackend DomainResult)
    (fs : FS) (domain : String) (useCache : Bool) (cacheKey : String)
    (h : fsExists fs (httpxPath env.tempId) = false)
    (h1 : httpxPath env.tempId ≠ subfinderPath domain env.tempId)
    (h2 : httpxPath env.tempId ≠ crtshPath domain env.tempId)
    (h3 : httpxPath env.tempId ≠ combinedPath domain env.tempId) :
    fsExists (SubdomainService.tryDomain env cache fs domain useCache cacheKey).fs
      (httpxPath env.tempId) = false := by
  have hp : ∀ pr ∈ (SubdomainService.runSubfinder env.subfinderOut
        (subfinderPath domain env.tempId) ++
      SubdomainService.runCrtsh env.crtshRaw (crtshPath domain env.tempId)),
      httpxPath env.tempId ≠ pr.1 := by
    intro pr hpr
    rcases List.mem_append.mp hpr with hm | hm
    · rcases hso : env.subfinderOut with _ | so <;> rw [hso] at hm
      · simp [SubdomainService.runSubfinder] at hm
      · simp only [SubdomainService.runSubfinder, List.mem_singleton] at hm
        rw [hm]
        exact h1
    · rcases hcr : env.crtshRaw with _ | cr <;> rw [hcr] at hm
      · simp [SubdomainService.runCrtsh] at hm
      · simp only [SubdomainService.runCrtsh, List.mem_singleton] at hm
        rw [hm]
        exact h2
  have hfs1 : fsExists
      (SubdomainService.waitForFiles fs
        (SubdomainService.runSubfinder env.subfinderOut (subfinderPath domain env.tempId) ++
          SubdomainService.runCrtsh env.crtshRaw (crtshPath domain env.tempId)))
      (httpxPath env.tempId) = false :=
    waitForFiles_absent _ fs _ h hp
  have hfs2 : fsExists
      (SubdomainService.combineResults
        (SubdomainService.waitForFiles fs
          (SubdomainService.runSubfinder env.subfinderOut (subfinderPath domain env.tempId) ++
            SubdomainService.runCrtsh env.crtshRaw (crtshPath domain env.tempId)))
        (subfinderPath domain env.tempId) (crtshPath domain env.tempId)
        (combinedPath domain env.tempId)).2
      (httpxPath env.tempId) = false :=
    fsExists_write_of_absent _ _ _ _ h3 hfs1
  have hfs3 := runHttpx_fs_absent env.jsonDecode env.httpxLines env.tempId
    (SubdomainService.combineResults
        (SubdomainService.waitForFiles fs
          (SubdomainService.runSubfinder env.subfinderOut (subfinderPath domain env.tempId) ++
            SubdomainService.runCrtsh env.crtshRaw (crtshPath domain env.tempId)))
        (subfinderPath domain env.tempId) (crtshPath domain env.tempId)
        (combinedPath domain env.tempId)).1
    _ hfs2
  rcases hfa : env.failAt with _ | n
  · simpa only [SubdomainService.tryDomain, hfa] using hfs3
  · rcases n with _ | _ | _ | _ | _ | m
    · simpa only [SubdomainService.tryDomain, hfa] using h
    · simpa only [SubdomainService.tryDomain, hfa] using h
    · simpa only [SubdomainService.tryDomain, hfa] using hfs1
    · simpa only [SubdomainService.tryDomain, hfa] using hfs2
    · simpa only [SubdomainService.tryDomain, hfa] using hfs3
    · simpa only [SubdomainService.tryDomain, hfa] using hfs3

theorem tryOrg_httpx_absent (env : OrgEnv) (cache : RedisBackend OrgResult)
    (fs : FS) (orgName : String) (useCache : Bool) (cacheKey : String)
    (h : fsExists fs (httpxPath env.tempId) = false)
    (h1 : httpxPath env.tempId ≠ orgPath orgName env.tempId) :
    fsExists (SubdomainService.tryOrg env cache fs orgName useCache cacheKey).fs
      (httpxPath env.tempId) = false := by
  have hfs1 : fsExists (SubdomainService.runCrtshOrg env.crtshRaw fs
      (orgPath orgName env.tempId)).2 (httpxPath env.tempId) = false := by
    simp only [SubdomainService.runCrtshOrg]
    cases hr : fsRead (fsWrite fs (orgPath orgName env.tempId) (crtshPipeline env.crtshRaw))
        (orgPath orgName env.tempId) <;>
      exact fsExists_write_of_absent _ _ _ _ h1 h
  have hfs2 := runHttpx_fs_absent env.jsonDecode env.httpxLines env.tempId
    (SubdomainService.runCrtshOrg env.crtshRaw fs (orgPath orgName env.tempId)).1 _ hfs1
  rcases hfa : env.failAt with _ | n
  · simpa only [SubdomainService.tryOrg, hfa] using hfs2
  · rcases n with _ | _ | _ | m
    · simpa only [SubdomainService.tryOrg, hfa] using h
    · simpa only [SubdomainService.tryOrg, hfa] using hfs1
    · simpa only [SubdomainService.tryOrg, hfa] using hfs2
    · simpa only [SubdomainService.tryOrg, hfa] using hfs2

theorem domainFresh_cleanup (env : DomainEnv) (cache : RedisBackend DomainResult)
    (fs : FS) (domain : String) (useCache : Bool) (cacheKey : String)
    (h4 : fsExists fs (httpxPath env.tempId) = false) :
    fsExists (SubdomainService.cleanupFiles
        (SubdomainService.tryDomain env cache fs domain useCache cacheKey).fs
        [subfinderPath domain env.tempId, crtshPath domain env.tempId,
          combinedPath domain env.tempId])
      (subfinderPath domain env.tempId) = false ∧
    fsExists (SubdomainService.cleanupFiles
        (SubdomainService.tryDomain env cache fs domain useCache cacheKey).fs
        [subfinderPath domain env.tempId, crtshPath domain env.tempId,
          combinedPath domain env.tempId])
      (crtshPath domain env.tempId) = false ∧
    fsExists (SubdomainService.cleanupFiles
        (SubdomainService.tryDomain env cache fs domain useCache cacheKey).fs
        [subfinderPath domain env.tempId, crtshPath domain env.tempId,
          combinedPath domain env.tempId])
      (combinedPath domain env.tempId) = false ∧
    fsExists (SubdomainService.cleanupFiles
        (SubdomainService.tryDomain env cache fs domain useCache cacheKey).fs
        [subfinderPath domain env.tempId, crtshPath domain env.tempId,
          combinedPath domain env.tempId])
      (httpxPath env.tempId) = false := by
  refine ⟨cleanupFiles_mem _ _ _ (by simp), cleanupFiles_mem _ _ _ (by simp),
    cleanupFiles_mem _ _ _ (by simp), ?_⟩
  by_cases e1 : httpxPath env.tempId = subfinderPath domain env.tempId
  · exact cleanupFiles_mem _ _ _ (by simp [e1])
  by_cases e2 : httpxPath env.tempId = crtshPath domain env.tempId
  · exact cleanupFiles_mem _ _ _ (by simp [e2])
  by_cases e3 : httpxPath env.tempId = combinedPath domain env.tempId
  · exact cleanupFiles_mem _ _ _ (by simp [e3])
  exact cleanupFiles_absent _ _ _
    (tryDomain_httpx_absent env cache fs domain useCache cacheKey h4 e1 e2 e3)

theorem orgFresh_cleanup (env : OrgEnv) (cache : RedisBackend OrgResult)
    (fs : FS) (orgName : String) (useCache : Bool) (cacheKey : String)
    (h2 : fsExists fs (httpxPath env.tempId) = false) :
    fsExists (SubdomainService.cleanupFiles
        (SubdomainService.tryOrg env cache fs orgName useCache cacheKey).fs
        [orgPath orgName env.tempId])
      (orgPath orgName env.tempId) = false ∧
    fsExists (SubdomainService.cleanupFiles
        (SubdomainService.tryOrg env cache fs orgName useCache cacheKey).fs
        [orgPath orgName env.tempId])
      (httpxPath env.tempId) = false := by
  refine ⟨cleanupFiles_mem _ _ _ (by simp), ?_⟩
  by_cases e1 : httpxPath env.tempId = orgPath orgName env.tempId
  · exact cleanupFiles_mem _ _ _ (by simp [e1])
  exact cleanupFiles_absent _ _ _
    (tryOrg_httpx_absent env cache fs orgName useCache cacheKey h2 e1)

/-- C10: a discovery call removes every temporary file it created before
returning, on the success path and on the exception path alike: if the
request's per-request temporary paths (fresh `uniqid` names) are absent
beforehand, they are absent after `getSubdomainsByDomain` or
`getSubdomainsByOrganization` completes, whether it returns a value or
rethrows from any injected exception point. -/
theorem C10_temp_cleanup (env : DomainEnv) (cache : RedisBackend DomainResult)
    (fs : FS) (domain : String) (useCache : Bool)
    (envO : OrgEnv) (cacheO : RedisBackend OrgResult) (fsO : FS)
    (orgName : String) (useCacheO : Bool) :
    (fsExists fs (subfinderPath domain env.tempId) = false →
      fsExists fs (crtshPath domain env.tempId) = false →
      fsExists fs (combinedPath domain env.tempId) = false →
      fsExists fs (httpxPath env.tempId) = false →
      (fsExists (SubdomainService.getSubdomainsByDomain env cache fs domain useCache).fs
          (subfinderPath domain env.tempId) = false ∧
        fsExists (SubdomainService.getSubdomainsByDomain env cache fs domain useCache).fs
          (crtshPath domain env.tempId) = false ∧
        fsExists (SubdomainService.getSubdomainsByDomain env cache fs domain useCache).fs
          (combinedPath domain env.tempId) = false ∧
        fsExists (SubdomainService.getSubdomainsByDomain env cache fs domain useCache).fs
          (httpxPath env.tempId) = false)) ∧
    (fsExists fsO (orgPath orgName envO.tempId) = false →
      fsExists fsO (httpxPath envO.tempId) = false →
      (fsExists (SubdomainService.getSubdomainsByOrganization envO cacheO fsO orgName useCacheO).fs
          (orgPath orgName envO.tempId) = false ∧
        fsExists (SubdomainService.getSubdomainsByOrganization envO cacheO fsO orgName useCacheO).fs
          (httpxPath envO.tempId) = false)) := by
  constructor
  · intro h1 h2 h3 h4
    rcases hget : RedisService.get cache ("domain:" ++ domain) with _ | d <;>
      cases useCache
    · simp only [SubdomainService.getSubdomainsByDomain, hget]
      exact domainFresh_cleanup env cache fs domain false _ h4
    · simp only [SubdomainService.getSubdomainsByDomain, hget]
      exact domainFresh_cleanup env cache fs domain true _ h4
    · simp only [SubdomainService.getSubdomainsByDomain, hget]
      exact domainFresh_cleanup env cache fs domain false _ h4
    · simp only [SubdomainService.getSubdomainsByDomain, hget]
      exact ⟨h1, h2, h3, h4⟩
  · intro h1 h2
    rcases hget : RedisService.get cacheO ("org:" ++ orgName) with _ | d <;>
      cases useCacheO
    · simp only [SubdomainService.getSubdomainsByOrganization, hget]
      exact orgFresh_cleanup envO cacheO fsO orgName false _ h2
    · simp only [SubdomainService.getSubdomainsByOrganization, hget]
      exact orgFresh_cleanup envO cacheO fsO orgName true _ h2
    · simp only [SubdomainService.getSubdomainsByOrganization, hget]
      exact orgFresh_cleanup envO cacheO fsO orgName false _ h2
    · simp only [SubdomainService.getSubdomainsByOrganization, hget]
      exact ⟨h1, h2⟩

/-- Witness for C10 at a concrete request (one provider succeeds, httpx
answers one line) over an initially empty filesystem. -/
theorem C10_temp_cleanup_witness :
    fsExists (SubdomainService.getSubdomainsByDomain
        ⟨some ["a.e.com"], none, ["true"], jsonDecodeLit, "t1", none⟩
        (.live []) [] "e.com" true).fs
      (subfinderPath "e.com" "t1") = false ∧
    fsExists (SubdomainService.getSubdomainsByOrganization sampleOrgEnv
        (.live []) [] "acme" true).fs
      (orgPath "acme" "t1") = false :=
  ⟨((C10_temp_cleanup ⟨some ["a.e.com"], none, ["true"], jsonDecodeLit, "t1", none⟩
        (.live []) [] "e.com" true sampleOrgEnv (.live []) [] "acme" true).1
      rfl rfl rfl rfl).1,
   ((C10_temp_cleanup ⟨some ["a.e.com"], none, ["true"], jsonDecodeLit, "t1", none⟩
        (.live []) [] "e.com" true sampleOrgEnv (.live []) [] "acme" true).2
      rfl rfl).1⟩
